import Mathlib

/-!
Shallow embedding of the Ivezic P1/P2 color-color utilities from
`python/lsst/pipe/analysis/utils.py` (functions `fLinear`, `fQuadratic`,
`fCubic`, `orthogonalRegression`, `distanceSquaredToPoly`,
`p1CoeffsFromP2x0y0`, `p2p1CoeffsFromLinearFit`, `lineFromP2Coeffs`,
`linesFromP2P1Coeffs`, `makeEqnStr`), together with proofs of the spec
claims about them.

Numeric values are modelled by exact real numbers (the claims speak of
exact real arithmetic); string-producing code is modelled over exact
rationals so that it stays executable.  Calls into external libraries
(scipy linregress / ODR / fsolve) are modelled as oracle parameters: the
repository code only forwards their results, and no claim depends on
their values.
-/

namespace PipeAnalysis

/-- Embeds `fLinear(p, x) = p[0] + p[1]*x` from utils.py. -/
def fLinear (p : List ℝ) (x : ℝ) : ℝ :=
  p.getD 0 0 + p.getD 1 0 * x

/-- Embeds `fQuadratic(p, x) = p[0] + p[1]*x + p[2]*x**2` from utils.py. -/
def fQuadratic (p : List ℝ) (x : ℝ) : ℝ :=
  p.getD 0 0 + p.getD 1 0 * x + p.getD 2 0 * x ^ 2

/-- Embeds `fCubic(p, x) = p[0] + p[1]*x + p[2]*x**2 + p[3]*x**3` from utils.py. -/
def fCubic (p : List ℝ) (x : ℝ) : ℝ :=
  p.getD 0 0 + p.getD 1 0 * x + p.getD 2 0 * x ^ 2 + p.getD 3 0 * x ^ 3

/-- Embeds `orthogonalRegression(x, y, order, initialGuess)` from utils.py.
The scipy calls are abstracted as oracles: `linregress` stands for
`scipyStats.linregress` (returning a slope/intercept pair) and `odrRun`
stands for building `scipyOdr.ODR(odrData, odrModel, beta0=...)`, running
it and reading off `.beta`; the repository code selects the model
function by `order`, raising a `RuntimeError` for any order outside
1..3, and returns the reversed fit coefficients. -/
def orthogonalRegression (x y : List ℝ) (order : ℤ)
    (initialGuess : Option (List ℝ))
    (linregress : List ℝ → List ℝ → ℝ × ℝ)
    (odrRun : (List ℝ → ℝ → ℝ) → List ℝ → List ℝ → List ℝ → List ℝ) :
    Except String (List ℝ) :=
  let guess : List ℝ :=
    match initialGuess with
    | some g => g
    | none =>
      let linReg := linregress x y
      List.replicate (order - 1).toNat 0 ++ [linReg.1, linReg.2]
  if order = 1 then
    Except.ok (odrRun fLinear x y guess).reverse
  else if order = 2 then
    Except.ok (odrRun fQuadratic x y guess).reverse
  else if order = 3 then
    Except.ok (odrRun fCubic x y guess).reverse
  else
    Except.error ("Order must be between 1 and 3 (value requested, " ++
      toString order ++ ", not accommodated)")

/-- Embeds `distanceSquaredToPoly(x1, y1, x2, poly)` from utils.py:
`(x2 - x1)**2 + (poly(x2) - y1)**2`. -/
def distanceSquaredToPoly (x1 y1 x2 : ℝ) (poly : ℝ → ℝ) : ℝ :=
  (x2 - x1) ^ 2 + (poly x2 - y1) ^ 2

/-- Embeds `p1CoeffsFromP2x0y0(p2Coeffs, x0, y0)` from utils.py:
`mP1 = p2Coeffs[0]/p2Coeffs[2]`, `theta = arctan(mP1)`, and the result is
`[cos(theta), sin(theta) - cos(theta), -sin(theta), deltaP1]` with
`deltaP1 = -cos(theta)*x0 - sin(theta)*y0`. -/
noncomputable def p1CoeffsFromP2x0y0 (p2Coeffs : List ℝ) (x0 y0 : ℝ) : List ℝ :=
  let mP1 := p2Coeffs.getD 0 0 / p2Coeffs.getD 2 0
  let cosTheta := Real.cos (Real.arctan mP1)
  let sinTheta := Real.sin (Real.arctan mP1)
  let deltaP1 := -cosTheta * x0 - sinTheta * y0
  [cosTheta, sinTheta - cosTheta, -sinTheta, deltaP1]

/-- Result struct of `p2p1CoeffsFromLinearFit` (an `lsst.pipe.base.Struct`
with components `p2Coeffs` and `p1Coeffs` in the source). -/
structure P2P1FitResult where
  p2Coeffs : List ℝ
  p1Coeffs : List ℝ

/-- Embeds `p2p1CoeffsFromLinearFit(m, b, x0, y0)` from utils.py:
`scaleFact = sqrt(m**2 + 1)`, raw coefficients
`[-m, m + 1, -1, -b] / scaleFact`, then every component is divided by
`p2Norm`, the L2 norm of the first three scaled components
(the loop over `p2Coeffs[:-1]`); `p1Coeffs` is then derived from the
normalized `p2Coeffs` via `p1CoeffsFromP2x0y0`. -/
noncomputable def p2p1CoeffsFromLinearFit (m b x0 y0 : ℝ) : P2P1FitResult :=
  let scaleFact := Real.sqrt (m ^ 2 + 1)
  let p2Raw : List ℝ :=
    [-m / scaleFact, (m + 1) / scaleFact, -1 / scaleFact, -b / scaleFact]
  let p2Norm := Real.sqrt (p2Raw.dropLast.foldl (fun acc c => acc + c ^ 2) 0)
  let p2Coeffs := p2Raw.map (fun c => c / p2Norm)
  { p2Coeffs := p2Coeffs
    p1Coeffs := p1CoeffsFromP2x0y0 p2Coeffs x0 y0 }

/-- Result struct of `lineFromP2Coeffs` (components `mP1`, `bP1`). -/
structure P1Line where
  mP1 : ℝ
  bP1 : ℝ

/-- Embeds `lineFromP2Coeffs(p2Coeffs)` from utils.py:
`mP1 = p2Coeffs[0]/p2Coeffs[2]` and
`bP1 = -p2Coeffs[3]*sqrt(mP1**2 + (mP1 + 1)**2 + 1)`. -/
noncomputable def lineFromP2Coeffs (p2Coeffs : List ℝ) : P1Line :=
  let mP1 := p2Coeffs.getD 0 0 / p2Coeffs.getD 2 0
  let bP1 := -(p2Coeffs.getD 3 0) * Real.sqrt (mP1 ^ 2 + (mP1 + 1) ^ 2 + 1)
  { mP1 := mP1, bP1 := bP1 }

/-- Result struct of `linesFromP2P1Coeffs` (components `mP2`, `bP2`,
`mP1`, `bP1`, `x0`, `y0`). -/
structure P2P1Lines where
  mP2 : ℝ
  bP2 : ℝ
  mP1 : ℝ
  bP1 : ℝ
  x0 : ℝ
  y0 : ℝ

/-- Embeds `linesFromP2P1Coeffs(p2Coeffs, p1Coeffs)` from utils.py.
`scipyOptimize.fsolve(func2, [1, 1])` is abstracted as an oracle taking
the residual function `func2` and the initial guess `(1, 1)`; the code
then sets `mP2 = -1.0/mP1` and `bP2 = x0y0[1] - mP2*x0y0[0]`. -/
noncomputable def linesFromP2P1Coeffs (p2Coeffs p1Coeffs : List ℝ)
    (fsolve : (ℝ × ℝ → ℝ × ℝ) → ℝ × ℝ → ℝ × ℝ) : P2P1Lines :=
  let p1Line := lineFromP2Coeffs p2Coeffs
  let mP1 := p1Line.mP1
  let bP1 := p1Line.bP1
  let cosTheta := Real.cos (Real.arctan mP1)
  let sinTheta := Real.sin (Real.arctan mP1)
  let func2 : ℝ × ℝ → ℝ × ℝ := fun v =>
    (cosTheta * v.1 + sinTheta * v.2 + p1Coeffs.getD 3 0,
     mP1 * v.1 - v.2 + bP1)
  let x0y0 := fsolve func2 (1, 1)
  let mP2 := -1 / mP1
  let bP2 := x0y0.2 - mP2 * x0y0.1
  { mP2 := mP2, bP2 := bP2, mP1 := mP1, bP1 := bP1,
    x0 := x0y0.1, y0 := x0y0.2 }

/-- Renders a nonnegative rational with exactly three decimal places,
modelling the Python fixed-point format `"{:.3f}".format(...)` applied to
the absolute value of a coefficient (rounding differences at exact
half-thousandth ties aside, which no claim exercises). -/
def format3f (q : ℚ) : String :=
  let n : ℤ := round (q * 1000)
  let frac := n % 1000
  let fracStr :=
    if frac < 10 then "00" ++ toString frac
    else if frac < 100 then "0" ++ toString frac
    else toString frac
  toString (n / 1000) ++ "." ++ fracStr

/-- Models the Python call `s.strip(" ")`: removes the space characters
at both ends of the string. -/
def stripSpaces (s : String) : String :=
  String.mk (((s.data.dropWhile (fun c => c = ' ')).reverse.dropWhile
    (fun c => c = ' ')).reverse)

/-- The loop body of `makeEqnStr`: for each `(coeff, band)` pair at index
`i`, the code builds `coeffStr = "{:.3f}".format(abs(coeff)) + band`,
chooses `plusMinus = " $-$ "` for `coeff < 0` else `" + "`, and appends
`plusMinus.strip(" ") + coeffStr` when `i == 0` and
`plusMinus + coeffStr` otherwise. -/
def makeEqnStrTerms : Nat → List (ℚ × String) → String
  | _, [] => ""
  | i, (coeff, band) :: rest =>
    let coeffStr := format3f (abs coeff) ++ band
    let plusMinus := if coeff < 0 then " $-$ " else " + "
    let piece :=
      if i = 0 then stripSpaces plusMinus ++ coeffStr else plusMinus ++ coeffStr
    piece ++ makeEqnStrTerms (i + 1) rest

/-- Embeds `makeEqnStr(varName, coeffList, exponentList)` from utils.py:
raises a `RuntimeError` when the two list lengths differ, otherwise
starts from `varName + " = "` and appends one term per
`(coeff, band)` pair of `zip(coeffList, exponentList)`. -/
def makeEqnStr (varName : String) (coeffList : List ℚ)
    (exponentList : List String) : Except String String :=
  if coeffList.length ≠ exponentList.length then
    Except.error ("Lengths of coeffList (" ++ toString coeffList.length ++
      ") and exponentList (" ++ toString exponentList.length ++
      ") are not equal")
  else
    Except.ok (varName ++ " = " ++
      makeEqnStrTerms 0 (coeffList.zip exponentList))

/-! Helper lemmas shared by several claim proofs. -/

/-- The normalized P2 coefficients of `p2p1CoeffsFromLinearFit` in closed
form: every raw component ends up divided by
`sqrt(m^2 + (m + 1)^2 + 1)`. -/
lemma p2Coeffs_eq (m b x0 y0 : ℝ) :
    (p2p1CoeffsFromLinearFit m b x0 y0).p2Coeffs =
      [-m / Real.sqrt (m ^ 2 + (m + 1) ^ 2 + 1),
       (m + 1) / Real.sqrt (m ^ 2 + (m + 1) ^ 2 + 1),
       -1 / Real.sqrt (m ^ 2 + (m + 1) ^ 2 + 1),
       -b / Real.sqrt (m ^ 2 + (m + 1) ^ 2 + 1)] := by
  have h1 : (0:ℝ) < m ^ 2 + 1 := by positivity
  have hs : (0:ℝ) < Real.sqrt (m ^ 2 + 1) := Real.sqrt_pos.mpr h1
  have hs2 : Real.sqrt (m ^ 2 + 1) ^ 2 = m ^ 2 + 1 := Real.sq_sqrt h1.le
  have hT : (0:ℝ) < m ^ 2 + (m + 1) ^ 2 + 1 := by positivity
  have hsT : (0:ℝ) < Real.sqrt (m ^ 2 + (m + 1) ^ 2 + 1) := Real.sqrt_pos.mpr hT
  have harg : 0 + (-m / Real.sqrt (m ^ 2 + 1)) ^ 2 +
      ((m + 1) / Real.sqrt (m ^ 2 + 1)) ^ 2 +
      (-1 / Real.sqrt (m ^ 2 + 1)) ^ 2 =
      (m ^ 2 + (m + 1) ^ 2 + 1) / (m ^ 2 + 1) := by
    rw [div_pow, div_pow, div_pow, hs2]
    field_simp
  have hcomp : ∀ c : ℝ, c / Real.sqrt (m ^ 2 + 1) /
      (Real.sqrt (m ^ 2 + (m + 1) ^ 2 + 1) / Real.sqrt (m ^ 2 + 1)) =
      c / Real.sqrt (m ^ 2 + (m + 1) ^ 2 + 1) := by
    intro c
    rw [div_div_eq_mul_div, div_mul_eq_mul_div, mul_comm c (Real.sqrt (m ^ 2 + 1)),
      mul_div_cancel_left₀ c hs.ne']
  simp only [p2p1CoeffsFromLinearFit, List.dropLast, List.foldl_cons, List.foldl_nil,
    List.map_cons, List.map_nil]
  rw [harg, Real.sqrt_div hT.le]
  simp only [hcomp]

/-- Claim C1: applying `p2p1CoeffsFromLinearFit(m, b, x0, y0)` and then
`lineFromP2Coeffs` to the resulting `p2Coeffs` recovers the original
slope and intercept exactly (in real arithmetic), for every slope `m`,
intercept `b` and origin `(x0, y0)`, regardless of the normalization
applied inside `p2p1CoeffsFromLinearFit`. -/
theorem p2p1Coeffs_lineFromP2Coeffs_roundTrip (m b x0 y0 : ℝ) :
    (lineFromP2Coeffs (p2p1CoeffsFromLinearFit m b x0 y0).p2Coeffs).mP1 = m ∧
    (lineFromP2Coeffs (p2p1CoeffsFromLinearFit m b x0 y0).p2Coeffs).bP1 = b := by
  have hT : (0:ℝ) < m ^ 2 + (m + 1) ^ 2 + 1 := by positivity
  have hsT : (0:ℝ) < Real.sqrt (m ^ 2 + (m + 1) ^ 2 + 1) := Real.sqrt_pos.mpr hT
  have hm : -m / Real.sqrt (m ^ 2 + (m + 1) ^ 2 + 1) /
      (-1 / Real.sqrt (m ^ 2 + (m + 1) ^ 2 + 1)) = m := by
    field_simp
  rw [p2Coeffs_eq]
  simp only [lineFromP2Coeffs, List.getD_cons_zero, List.getD_cons_succ]
  constructor
  · exact hm
  · rw [hm, neg_div, neg_neg, div_mul_cancel₀ _ hsT.ne']

/-- Claim C4: for every slope `m` and intercept `b`, the `p2Coeffs`
returned by `p2p1CoeffsFromLinearFit` satisfy the unit-normal invariant:
the sum of the squares of the first three components equals 1 exactly in
real arithmetic. -/
theorem p2Coeffs_first_three_unit_norm (m b x0 y0 : ℝ) :
    ((p2p1CoeffsFromLinearFit m b x0 y0).p2Coeffs.getD 0 0) ^ 2 +
      ((p2p1CoeffsFromLinearFit m b x0 y0).p2Coeffs.getD 1 0) ^ 2 +
      ((p2p1CoeffsFromLinearFit m b x0 y0).p2Coeffs.getD 2 0) ^ 2 = 1 := by
  have hT : (0:ℝ) < m ^ 2 + (m + 1) ^ 2 + 1 := by positivity
  have hsT2 : Real.sqrt (m ^ 2 + (m + 1) ^ 2 + 1) ^ 2 =
      m ^ 2 + (m + 1) ^ 2 + 1 := Real.sq_sqrt hT.le
  rw [p2Coeffs_eq]
  simp only [List.getD_cons_zero, List.getD_cons_succ]
  rw [div_pow, div_pow, div_pow, hsT2]
  field_simp

/-- Claim C3: for every 4-element P2 coefficient list with third
component nonzero and every origin `(x0, y0)`, the P1 coefficients
returned by `p1CoeffsFromP2x0y0` define a line that evaluates to zero at
`(x0, y0)`: with the result written `[cosTheta, sinTheta - cosTheta,
-sinTheta, deltaP1]`, the value `cosTheta*x0 + sinTheta*y0 + deltaP1`
(below: component 0 times `x0`, minus component 2 times `y0`, plus
component 3) equals 0 exactly. -/
theorem p1Coeffs_vanish_at_origin (p2Coeffs : List ℝ) (x0 y0 : ℝ)
    (_h : p2Coeffs.getD 2 0 ≠ 0) :
    (p1CoeffsFromP2x0y0 p2Coeffs x0 y0).getD 0 0 * x0 -
      (p1CoeffsFromP2x0y0 p2Coeffs x0 y0).getD 2 0 * y0 +
      (p1CoeffsFromP2x0y0 p2Coeffs x0 y0).getD 3 0 = 0 := by
  simp only [p1CoeffsFromP2x0y0, List.getD_cons_zero, List.getD_cons_succ]
  ring

/-- Concrete witness for `p1Coeffs_vanish_at_origin` at
`p2Coeffs = [0, 0, 1, 0]`, `(x0, y0) = (1, 2)`. -/
theorem p1Coeffs_vanish_at_origin_witness :
    ([0, 0, 1, 0] : List ℝ).getD 2 0 ≠ 0 ∧
    (p1CoeffsFromP2x0y0 [0, 0, 1, 0] 1 2).getD 0 0 * 1 -
      (p1CoeffsFromP2x0y0 [0, 0, 1, 0] 1 2).getD 2 0 * 2 +
      (p1CoeffsFromP2x0y0 [0, 0, 1, 0] 1 2).getD 3 0 = 0 :=
  ⟨by norm_num [List.getD_cons_zero, List.getD_cons_succ],
   p1Coeffs_vanish_at_origin [0, 0, 1, 0] 1 2
     (by norm_num [List.getD_cons_zero, List.getD_cons_succ])⟩

/-- Claim C5: for every 4-element P2 coefficient list with third
component nonzero, `p1CoeffsFromP2x0y0` returns exactly
`[cos θ, sin θ - cos θ, -sin θ, -cos θ * x0 - sin θ * y0]` with
`θ = arctan(c0/c2)`. -/
theorem p1CoeffsFromP2x0y0_closed_form (c0 c1 c2 c3 x0 y0 : ℝ)
    (_h : c2 ≠ 0) :
    p1CoeffsFromP2x0y0 [c0, c1, c2, c3] x0 y0 =
      [Real.cos (Real.arctan (c0 / c2)),
       Real.sin (Real.arctan (c0 / c2)) - Real.cos (Real.arctan (c0 / c2)),
       -Real.sin (Real.arctan (c0 / c2)),
       -Real.cos (Real.arctan (c0 / c2)) * x0 -
         Real.sin (Real.arctan (c0 / c2)) * y0] := by
  simp only [p1CoeffsFromP2x0y0, List.getD_cons_zero, List.getD_cons_succ]

/-- Concrete witness for `p1CoeffsFromP2x0y0_closed_form` at
`p2Coeffs = [0, 0, 1, 0]`, `(x0, y0) = (0, 0)`. -/
theorem p1CoeffsFromP2x0y0_closed_form_witness :
    ((1:ℝ) ≠ 0) ∧
    p1CoeffsFromP2x0y0 [0, 0, 1, 0] 0 0 =
      [Real.cos (Real.arctan (0 / 1)),
       Real.sin (Real.arctan (0 / 1)) - Real.cos (Real.arctan (0 / 1)),
       -Real.sin (Real.arctan (0 / 1)),
       -Real.cos (Real.arctan (0 / 1)) * 0 -
         Real.sin (Real.arctan (0 / 1)) * 0] :=
  ⟨by norm_num, p1CoeffsFromP2x0y0_closed_form 0 0 1 0 0 0 (by norm_num)⟩

/-- Claim C10: the result of `p1CoeffsFromP2x0y0` depends only on the
first and third P2 components and on `(x0, y0)`: two 4-element P2 lists
that agree in their first and third components (the latter nonzero)
yield identical P1 coefficient lists, whatever their second and fourth
components are. -/
theorem p1CoeffsFromP2x0y0_noninterference
    (c0 c1 c2 c3 d1 d3 x0 y0 : ℝ) (_h : c2 ≠ 0) :
    p1CoeffsFromP2x0y0 [c0, c1, c2, c3] x0 y0 =
      p1CoeffsFromP2x0y0 [c0, d1, c2, d3] x0 y0 := by
  simp only [p1CoeffsFromP2x0y0, List.getD_cons_zero, List.getD_cons_succ]

/-- Concrete witness for `p1CoeffsFromP2x0y0_noninterference`: the lists
`[0, 5, 1, 7]` and `[0, 9, 1, 4]` agree in components 0 and 2 only. -/
theorem p1CoeffsFromP2x0y0_noninterference_witness :
    ((1:ℝ) ≠ 0) ∧
    p1CoeffsFromP2x0y0 [0, 5, 1, 7] 2 3 =
      p1CoeffsFromP2x0y0 [0, 9, 1, 4] 2 3 :=
  ⟨by norm_num, p1CoeffsFromP2x0y0_noninterference 0 5 1 7 9 4 2 3 (by norm_num)⟩

/-- Claim C8: `distanceSquaredToPoly(x1, y1, x2, poly)` always returns
`(x2 - x1)^2 + (poly(x2) - y1)^2`, and with `poly` the identity
function, `distanceSquaredToPoly(0, 0, 1, poly)` returns exactly 2. -/
theorem distanceSquaredToPoly_spec :
    (∀ (x1 y1 x2 : ℝ) (poly : ℝ → ℝ),
      distanceSquaredToPoly x1 y1 x2 poly =
        (x2 - x1) ^ 2 + (poly x2 - y1) ^ 2) ∧
    distanceSquaredToPoly 0 0 1 (fun x => x) = 2 := by
  refine ⟨fun x1 y1 x2 poly => rfl, ?_⟩
  norm_num [distanceSquaredToPoly]

/-- Claim C9: whenever the P1 slope `mP1` derived by `lineFromP2Coeffs`
from the P2 coefficients is nonzero, `linesFromP2P1Coeffs` returns a P2
slope `mP2 = -1/mP1`, so the returned P2 line is perpendicular to the
returned P1 line (`mP2 * mP1 = -1`). -/
theorem linesFromP2P1Coeffs_perpendicular (p2Coeffs p1Coeffs : List ℝ)
    (fsolve : (ℝ × ℝ → ℝ × ℝ) → ℝ × ℝ → ℝ × ℝ)
    (h : (lineFromP2Coeffs p2Coeffs).mP1 ≠ 0) :
    (linesFromP2P1Coeffs p2Coeffs p1Coeffs fsolve).mP2 =
      -1 / (lineFromP2Coeffs p2Coeffs).mP1 ∧
    (linesFromP2P1Coeffs p2Coeffs p1Coeffs fsolve).mP2 *
      (linesFromP2P1Coeffs p2Coeffs p1Coeffs fsolve).mP1 = -1 := by
  have hm2 : (linesFromP2P1Coeffs p2Coeffs p1Coeffs fsolve).mP2 =
      -1 / (lineFromP2Coeffs p2Coeffs).mP1 := rfl
  have hm1 : (linesFromP2P1Coeffs p2Coeffs p1Coeffs fsolve).mP1 =
      (lineFromP2Coeffs p2Coeffs).mP1 := rfl
  refine ⟨hm2, ?_⟩
  rw [hm2, hm1, div_mul_cancel₀ _ h]

/-- Concrete witness for `linesFromP2P1Coeffs_perpendicular` at
`p2Coeffs = [1, 0, 1, 0]` (whose derived `mP1` is 1), arbitrary
`p1Coeffs` and an fsolve oracle returning its initial guess. -/
theorem linesFromP2P1Coeffs_perpendicular_witness :
    (lineFromP2Coeffs [1, 0, 1, 0]).mP1 ≠ 0 ∧
    (linesFromP2P1Coeffs [1, 0, 1, 0] [0, 0, 0, 0] (fun _ g => g)).mP2 *
      (linesFromP2P1Coeffs [1, 0, 1, 0] [0, 0, 0, 0] (fun _ g => g)).mP1 =
        -1 := by
  have h : (lineFromP2Coeffs ([1, 0, 1, 0] : List ℝ)).mP1 ≠ 0 := by
    norm_num [lineFromP2Coeffs, List.getD_cons_zero, List.getD_cons_succ]
  exact ⟨h, (linesFromP2P1Coeffs_perpendicular [1, 0, 1, 0] [0, 0, 0, 0]
    (fun _ g => g) h).2⟩

/-- Claim C6: `orthogonalRegression` succeeds exactly when the requested
order is 1, 2 or 3; for every other order it fails with the
invalid-order `RuntimeError`, whatever the data, the initial guess and
the external fit oracles are. -/
theorem orthogonalRegression_order_dispatch (x y : List ℝ) (order : ℤ)
    (initialGuess : Option (List ℝ))
    (linregress : List ℝ → List ℝ → ℝ × ℝ)
    (odrRun : (List ℝ → ℝ → ℝ) → List ℝ → List ℝ → List ℝ → List ℝ) :
    (orthogonalRegression x y order initialGuess linregress odrRun).isOk =
        true ↔
      order = 1 ∨ order = 2 ∨ order = 3 := by
  simp only [orthogonalRegression]
  split_ifs with h1 h2 h3 <;> simp_all [Except.isOk, Except.toBool]

/-- Concrete witness for `orthogonalRegression_order_dispatch`: order 2
succeeds. -/
theorem orthogonalRegression_order_dispatch_witness :
    (orthogonalRegression [] [] 2 (some []) (fun _ _ => (0, 0))
      (fun _ _ _ g => g)).isOk = true :=
  (orthogonalRegression_order_dispatch [] [] 2 (some []) (fun _ _ => (0, 0))
    (fun _ _ _ g => g)).mpr (Or.inr (Or.inl rfl))

/-- Claim C7: `makeEqnStr` fails with the length-mismatch error exactly
when the coefficient and exponent lists have different lengths, and
returns a string without raising when the lengths agree. -/
theorem makeEqnStr_length_mismatch (varName : String) (coeffList : List ℚ)
    (exponentList : List String) :
    ((∃ msg, makeEqnStr varName coeffList exponentList =
        Except.error msg) ↔
      coeffList.length ≠ exponentList.length) ∧
    (coeffList.length = exponentList.length →
      ∃ eqnStr, makeEqnStr varName coeffList exponentList =
        Except.ok eqnStr) := by
  unfold makeEqnStr
  split_ifs with h
  · exact ⟨⟨fun _ => h, fun _ => ⟨_, rfl⟩⟩, fun he => absurd he h⟩
  · refine ⟨⟨?_, fun hne => (h hne).elim⟩, fun _ => ⟨_, rfl⟩⟩
    rintro ⟨msg, hmsg⟩
    exact hmsg.elim

/-- Concrete witness for `makeEqnStr_length_mismatch`: equal-length
lists give a result, a one-element coefficient list with an empty
exponent list gives the error. -/
theorem makeEqnStr_length_mismatch_witness :
    (∃ eqnStr, makeEqnStr "P1" [1] ["c1"] = Except.ok eqnStr) ∧
    (∃ msg, makeEqnStr "P1" [1] [] = Except.error msg) :=
  ⟨(makeEqnStr_length_mismatch "P1" [1] ["c1"]).2 rfl,
   (makeEqnStr_length_mismatch "P1" [1] []).1.mpr (by decide)⟩

/-- Evaluation of `makeEqnStr` on the spec's example input: the code
emits a stripped `+` sign in front of the first term because
`plusMinus.strip(" ")` only removes the surrounding spaces of `" + "`,
not the sign itself. -/
lemma makeEqnStr_eval :
    makeEqnStr "P1" [2, -3/2] ["c1", "c2"] =
      Except.ok "P1 = +2.000c1 $-$ 1.500c2" := by
  have r1 : round ((2 : ℚ) * 1000) = 2000 := by rw [round_eq]; norm_num
  have r2 : round ((3/2 : ℚ) * 1000) = 1500 := by rw [round_eq]; norm_num
  have a1 : |(2 : ℚ)| = 2 := by norm_num
  have a2 : |(-3/2 : ℚ)| = 3/2 := by norm_num
  have a3 : |(3/2 : ℚ)| = 3/2 := by norm_num
  norm_num [makeEqnStr, makeEqnStrTerms, format3f, a1, a2, a3, r1, r2,
    List.zip_cons_cons]
  decide

/-- Counterexample to claim C2: `makeEqnStr("P1", [2.0, -1.5],
["c1", "c2"])` does not return the string `"P1 = 2.000c1 $-$ 1.500c2"`;
the first term comes out as `+2.000c1`, because the code prepends
`plusMinus.strip(" ")` (which is `"+"` for a non-negative coefficient,
not the empty string) to the first term. -/
theorem makeEqnStr_firstTerm_counterexample :
    makeEqnStr "P1" [2, -3/2] ["c1", "c2"] ≠
      Except.ok "P1 = 2.000c1 $-$ 1.500c2" := by
  rw [makeEqnStr_eval]
  intro hcontr
  exact absurd (Except.ok.inj hcontr) (by decide)

/-- Claim C2 as amended: `makeEqnStr("P1", [2.0, -1.5], ["c1", "c2"])`
returns exactly `"P1 = +2.000c1 $-$ 1.500c2"`: the first term carries
the stripped sign marker (`+` for a non-negative coefficient, `$-$` for
a negative one) with no surrounding spaces, coefficient magnitudes are
formatted with three decimal places, and subsequent terms are joined
with `" $-$ "` for negative and `" + "` for non-negative
coefficients. -/
theorem makeEqnStr_firstTerm_amended :
    makeEqnStr "P1" [2, -3/2] ["c1", "c2"] =
      Except.ok "P1 = +2.000c1 $-$ 1.500c2" :=
  makeEqnStr_eval

end PipeAnalysis
